import Mathlib

/-!
Shallow embedding of the RoadSense risk scoring and classification engine
(client/src/lib safety utilities and the dashboard's per-area analytics),
with theorems checking the specification's claims about it.

Records are modelled by the fields the engine reads; nullable columns are
`Option`-typed.  JavaScript `x || default` on a nullable numeric field is
`Option.getD`, and on a nullable string field the empty string is also
replaced by the default, mirroring JavaScript falsiness.
-/

namespace RoadSense

/-- The three-tier risk classification `SafetyLevel` (safe, moderate, high-risk). -/
inductive SafetyLevel where
  | safe : SafetyLevel
  | moderate : SafetyLevel
  | highRisk : SafetyLevel
deriving DecidableEq, Repr

/-- The fields of an accident record that the scoring / classification /
analytics engine reads.  `fatalities`, `severity` and `causePrimary` are
nullable in the schema; `area` and `time` are `NOT NULL`. -/
structure Accident where
  area : String
  time : String
  fatalities : Option Nat
  severity : Option String
  causePrimary : Option String
deriving DecidableEq, Repr

/-- ASCII lowercasing of a string, character by character (the model of
JavaScript `toLowerCase()` on the ASCII data the engine handles). -/
def lowerStr (s : String) : String := ⟨s.data.map Char.toLower⟩

/-- The lowercased severity label of a record, empty when absent (the model
of lowercasing `accident.severity` defaulted to the empty string). -/
def sevLower (a : Accident) : String :=
  lowerStr (a.severity.getD "")

/-- The per-record contribution inside `calculateSeverityScore`'s loop body:
`fatalities * 10`, plus `5` for a severe/fatal label, plus `2` for a moderate label. -/
def recordScore (a : Accident) : Nat :=
  a.fatalities.getD 0 * 10
    + (if sevLower a = "severe" ∨ sevLower a = "fatal" then 5 else 0)
    + (if sevLower a = "moderate" then 2 else 0)

/-- Model of `calculateSeverityScore`: fold of the loop body over the
record list, starting from `score = 0`. -/
def calculateSeverityScore (accidents : List Accident) : Nat :=
  accidents.foldl (fun score a => score + recordScore a) 0

theorem foldl_add_shift (l : List Accident) (s : Nat) :
    l.foldl (fun score a => score + recordScore a) s =
      s + l.foldl (fun score a => score + recordScore a) 0 := by
  induction l generalizing s with
  | nil => simp
  | cons a t ih =>
      simp only [List.foldl_cons]
      rw [ih (s + recordScore a), ih (0 + recordScore a)]
      omega

theorem calculateSeverityScore_cons (a : Accident) (l : List Accident) :
    calculateSeverityScore (a :: l) = recordScore a + calculateSeverityScore l := by
  unfold calculateSeverityScore
  simp only [List.foldl_cons]
  rw [foldl_add_shift l (0 + recordScore a)]
  omega

/-- C1: the severity score is `10 × Σ fatalities + 5 × #severe/fatal + 2 × #moderate`,
with absent fatalities counted as 0; a record with positive fatalities and a
"fatal" label contributes to both the fatality term and the 5-point term, an
unrecognized or absent severity contributes only its fatality term, and the
empty list scores 0. -/
theorem claim1_severity_score_formula :
    (∀ l : List Accident,
      calculateSeverityScore l =
        10 * (l.map (fun a => a.fatalities.getD 0)).sum
          + 5 * l.countP (fun a => sevLower a = "severe" || sevLower a = "fatal")
          + 2 * l.countP (fun a => sevLower a = "moderate"))
    ∧ calculateSeverityScore [] = 0 := by
  refine ⟨?_, rfl⟩
  intro l
  induction l with
  | nil => rfl
  | cons a t ih =>
      rw [calculateSeverityScore_cons, ih]
      simp only [List.map_cons, List.sum_cons, List.countP_cons, recordScore]
      by_cases h1 : sevLower a = "severe" ∨ sevLower a = "fatal" <;>
        by_cases h2 : sevLower a = "moderate" <;>
          simp [h1, h2] <;> ring

/-- JavaScript array indexing `sorted[i]` for the in-range indices the
percentile computation produces, as a total function on `ℚ` lists. -/
def getQ (l : List ℚ) (i : ℤ) : ℚ := l.getD i.toNat 0

/-- Model of `calculatePercentile`: sort ascending, take `index = p/100 × (n−1)`,
return the element there when `floor index = ceil index` and otherwise the
linear interpolation weighted by the fractional part.  Empty input returns 0. -/
def calculatePercentile (scores : List ℚ) (percentile : ℚ) : ℚ :=
  if scores = [] then 0
  else
    let sorted := scores.insertionSort (· ≤ ·)
    let index : ℚ := percentile / 100 * ((sorted.length : ℚ) - 1)
    let lower : ℤ := ⌊index⌋
    let upper : ℤ := ⌈index⌉
    let weight : ℚ := index - (lower : ℚ)
    if lower = upper then getQ sorted lower
    else getQ sorted lower * (1 - weight) + getQ sorted upper * weight

/-- The specification's description of the percentile computation, phrased
over an already-sorted sequence of order statistics (for comparison with
`calculatePercentile`, which sorts internally). -/
def percentileFromSorted (s : List ℚ) (p : ℚ) : ℚ :=
  let index : ℚ := p / 100 * ((s.length : ℚ) - 1)
  if ⌊index⌋ = ⌈index⌉ then getQ s ⌊index⌋
  else getQ s ⌊index⌋ * (1 - (index - (⌊index⌋ : ℚ)))
        + getQ s ⌈index⌉ * (index - (⌊index⌋ : ℚ))

theorem calculatePercentile_eq_fromSorted (scores : List ℚ) (p : ℚ)
    (h : scores ≠ []) :
    calculatePercentile scores p =
      percentileFromSorted (scores.insertionSort (· ≤ ·)) p := by
  simp only [calculatePercentile, percentileFromSorted, if_neg h]

/-- C3: `calculatePercentile` returns 0 on the empty list for every `p`;
on a non-empty list it applies the spec's order-statistic interpolation
formula to the (unique) ascending sorted permutation of the scores; and
`percentile([10,20,30,40], 25) = 17.5`, `percentile([5], 50) = 5`. -/
theorem claim3_percentile :
    (∀ p : ℚ, calculatePercentile [] p = 0)
    ∧ calculatePercentile [10, 20, 30, 40] 25 = 35 / 2
    ∧ calculatePercentile [5] 50 = 5
    ∧ (∀ (scores s : List ℚ) (p : ℚ), scores ≠ [] →
        scores.Perm s → s.Sorted (· ≤ ·) →
        calculatePercentile scores p = percentileFromSorted s p) := by
  refine ⟨fun p => by simp [calculatePercentile], ?_, ?_, ?_⟩
  · rw [calculatePercentile_eq_fromSorted _ _ (by simp),
      List.Sorted.insertionSort_eq (by simp [List.sorted_cons]; norm_num)]
    unfold percentileFromSorted
    simp only [List.length_cons, List.length_nil]
    norm_num
    rw [show ⌈(3/4 : ℚ)⌉ = 1 by rw [Int.ceil_eq_iff]; norm_num]
    norm_num [getQ, List.getD]
  · rw [calculatePercentile_eq_fromSorted _ _ (by simp),
      List.Sorted.insertionSort_eq (List.sorted_singleton 5)]
    unfold percentileFromSorted
    simp only [List.length_cons, List.length_nil]
    norm_num [getQ]
  · intro scores s p hne hperm hsorted
    rw [calculatePercentile_eq_fromSorted _ _ hne,
      List.eq_of_perm_of_sorted
        ((List.perm_insertionSort _ scores).trans hperm)
        (List.sorted_insertionSort _ scores) hsorted]

/-- Witness for the quantified parts of `claim3_percentile` at concrete inputs. -/
theorem claim3_percentile_witness :
    calculatePercentile [] 25 = 0
    ∧ calculatePercentile [5] 50 = percentileFromSorted [5] 50 :=
  ⟨claim3_percentile.1 25,
    claim3_percentile.2.2.2 [5] [5] 50 (by simp) (List.Perm.refl [5])
      (List.sorted_singleton 5)⟩

/-- Model of `calculateSafetyLevelFromAccidents`: an empty group is safe; with no
comparison population (or an empty one) apply the absolute thresholds
(score ≥ 50 high-risk, ≥ 20 moderate, else safe); otherwise compare the
group's score against the population's 75th and 25th percentiles. -/
def calculateSafetyLevelFromAccidents (accidents : List Accident)
    (allScores : Option (List ℚ)) : SafetyLevel :=
  if accidents = [] then .safe
  else
    let score := calculateSeverityScore accidents
    match allScores with
    | none =>
        if score ≥ 50 then .highRisk
        else if score ≥ 20 then .moderate
        else .safe
    | some scores =>
        if scores = [] then
          if score ≥ 50 then .highRisk
          else if score ≥ 20 then .moderate
          else .safe
        else
          let percentile75 := calculatePercentile scores 75
          let percentile25 := calculatePercentile scores 25
          if (score : ℚ) ≥ percentile75 then .highRisk
          else if (score : ℚ) ≥ percentile25 then .moderate
          else .safe

/-- The three records of the spec's end-to-end scenario: fatalities
`[1,0,0]`, severities `["fatal","moderate","minor"]`. -/
def scenarioRecords : List Accident :=
  [{ area := "A", time := "", fatalities := some 1, severity := some "fatal",
     causePrimary := none },
   { area := "A", time := "", fatalities := some 0, severity := some "moderate",
     causePrimary := none },
   { area := "A", time := "", fatalities := some 0, severity := some "minor",
     causePrimary := none }]

/-- C4: with no comparison population the classifier applies the absolute
thresholds — high-risk iff score ≥ 50, moderate iff 20 ≤ score < 50, else
safe; score 49 is not high-risk, 20 is moderate, 19 is safe, and the
spec's 3-record scenario scores 17 and classifies safe. -/
theorem claim4_policyB_thresholds :
    (∀ (a : Accident) (l : List Accident),
      calculateSafetyLevelFromAccidents (a :: l) none =
        if calculateSeverityScore (a :: l) ≥ 50 then .highRisk
        else if calculateSeverityScore (a :: l) ≥ 20 then .moderate
        else .safe)
    ∧ (∀ (a : Accident) (l : List Accident),
        calculateSeverityScore (a :: l) = 49 →
          calculateSafetyLevelFromAccidents (a :: l) none ≠ .highRisk)
    ∧ (∀ (a : Accident) (l : List Accident),
        calculateSeverityScore (a :: l) = 20 →
          calculateSafetyLevelFromAccidents (a :: l) none = .moderate)
    ∧ (∀ (a : Accident) (l : List Accident),
        calculateSeverityScore (a :: l) = 19 →
          calculateSafetyLevelFromAccidents (a :: l) none = .safe)
    ∧ calculateSeverityScore scenarioRecords = 17
    ∧ calculateSafetyLevelFromAccidents scenarioRecords none = .safe := by
  have hgen : ∀ (a : Accident) (l : List Accident),
      calculateSafetyLevelFromAccidents (a :: l) none =
        if calculateSeverityScore (a :: l) ≥ 50 then .highRisk
        else if calculateSeverityScore (a :: l) ≥ 20 then .moderate
        else .safe := by
    intro a l
    simp [calculateSafetyLevelFromAccidents]
  refine ⟨hgen, ?_, ?_, ?_, by decide, by decide⟩
  · intro a l h; rw [hgen, h]; decide
  · intro a l h; rw [hgen, h]; decide
  · intro a l h; rw [hgen, h]; decide

/-- Witness for `claim4_policyB_thresholds`: concrete record lists whose
scores hit the 49 / 20 / 19 boundaries. -/
theorem claim4_policyB_thresholds_witness :
    calculateSeverityScore
        ({ area := "A", time := "", fatalities := some 4,
           severity := some "severe", causePrimary := none } ::
         [{ area := "A", time := "", fatalities := some 0,
            severity := some "moderate", causePrimary := none },
          { area := "A", time := "", fatalities := some 0,
            severity := some "moderate", causePrimary := none }]) = 49
    ∧ calculateSafetyLevelFromAccidents
        ({ area := "A", time := "", fatalities := some 4,
           severity := some "severe", causePrimary := none } ::
         [{ area := "A", time := "", fatalities := some 0,
            severity := some "moderate", causePrimary := none },
          { area := "A", time := "", fatalities := some 0,
            severity := some "moderate", causePrimary := none }]) none ≠ .highRisk
    ∧ calculateSafetyLevelFromAccidents
        ({ area := "A", time := "", fatalities := some 2, severity := none,
           causePrimary := none } :: []) none = .moderate
    ∧ calculateSafetyLevelFromAccidents
        ({ area := "A", time := "", fatalities := some 1,
           severity := some "severe", causePrimary := none } ::
         [{ area := "A", time := "", fatalities := some 0,
            severity := some "moderate", causePrimary := none },
          { area := "A", time := "", fatalities := some 0,
            severity := some "moderate", causePrimary := none }]) none = .safe :=
  ⟨by decide,
    claim4_policyB_thresholds.2.1 _ _ (by decide),
    claim4_policyB_thresholds.2.2.1 _ _ (by decide),
    claim4_policyB_thresholds.2.2.2.1 _ _ (by decide)⟩

theorem getQ_le_of_forall_le {s : List ℚ} {c : ℚ} (hmem : ∀ x ∈ s, x ≤ c)
    {j : ℤ} (hj0 : 0 ≤ j) (hj1 : j ≤ (s.length : ℤ) - 1) : getQ s j ≤ c := by
  have hlt : j.toNat < s.length := by omega
  rw [getQ, List.getD_eq_getElem s 0 hlt]
  exact hmem _ (List.getElem_mem hlt)

/-- The interpolated 75th percentile never exceeds an upper bound of the
score population. -/
theorem percentile75_le (scores : List ℚ) (c : ℚ) (hne : scores ≠ [])
    (hle : ∀ x ∈ scores, x ≤ c) : calculatePercentile scores 75 ≤ c := by
  rw [calculatePercentile_eq_fromSorted _ _ hne]
  have hperm := List.perm_insertionSort (· ≤ ·) scores
  set s := scores.insertionSort (· ≤ ·) with hs
  have hmem : ∀ x ∈ s, x ≤ c := fun x hx => hle x (hperm.mem_iff.mp hx)
  have hlen : 1 ≤ s.length := by
    rw [hs, List.length_insertionSort]
    cases scores with
    | nil => exact absurd rfl hne
    | cons a t => simp
  unfold percentileFromSorted
  set i : ℚ := 75 / 100 * ((s.length : ℚ) - 1) with hi
  have hL : (1 : ℚ) ≤ (s.length : ℚ) := by exact_mod_cast hlen
  have h0 : 0 ≤ i := by
    rw [hi]
    have : (0:ℚ) ≤ (s.length : ℚ) - 1 := by linarith
    positivity
  have h1 : i ≤ (s.length : ℚ) - 1 := by
    rw [hi]; nlinarith
  have hfl0 : 0 ≤ ⌊i⌋ := Int.floor_nonneg.mpr h0
  have hfl1 : ⌊i⌋ ≤ (s.length : ℤ) - 1 := by
    have h' : ⌊i⌋ ≤ ⌊(s.length : ℚ) - 1⌋ := Int.floor_le_floor h1
    rwa [show ((s.length : ℚ) - 1) = (((s.length : ℤ) - 1 : ℤ) : ℚ) by push_cast; ring,
      Int.floor_intCast] at h'
  have hcl1 : ⌈i⌉ ≤ (s.length : ℤ) - 1 := by
    rw [Int.ceil_le]
    push_cast
    exact h1
  have hcl0 : 0 ≤ ⌈i⌉ := le_trans hfl0 (Int.floor_le_ceil i)
  have ha : getQ s ⌊i⌋ ≤ c := getQ_le_of_forall_le hmem hfl0 hfl1
  have hb : getQ s ⌈i⌉ ≤ c := getQ_le_of_forall_le hmem hcl0 hcl1
  by_cases hif : ⌊i⌋ = ⌈i⌉
  · simpa [hif] using hb
  · rw [if_neg hif]
    have w0 : 0 ≤ i - (⌊i⌋ : ℚ) := by
      have := Int.floor_le i; linarith
    have w1 : i - (⌊i⌋ : ℚ) ≤ 1 := by
      have := Int.lt_floor_add_one i; push_cast at this ⊢; linarith
    nlinarith [ha, hb, w0, w1]

/-- A non-empty group whose score bounds the whole non-empty comparison
population from above is classified high-risk under Policy A. -/
theorem policyA_high_of_upper_bound (a : Accident) (l : List Accident)
    (pop : List ℚ) (hne : pop ≠ [])
    (hle : ∀ x ∈ pop, x ≤ (calculateSeverityScore (a :: l) : ℚ)) :
    calculateSafetyLevelFromAccidents (a :: l) (some pop) = .highRisk := by
  have h75 := percentile75_le pop _ hne hle
  unfold calculateSafetyLevelFromAccidents
  rw [if_neg (List.cons_ne_nil a l)]
  simp only [if_neg hne]
  rw [if_pos (ge_iff_le.mpr h75)]

/-- C10: under Policy A, a non-empty group whose score is an upper bound
of the whole (non-empty) comparison population is classified high-risk;
in particular, a group compared against the one-element population holding
exactly its own score is always high-risk. -/
theorem claim10_max_score_high_risk :
    (∀ (a : Accident) (l : List Accident) (pop : List ℚ), pop ≠ [] →
      (∀ x ∈ pop, x ≤ (calculateSeverityScore (a :: l) : ℚ)) →
      calculateSafetyLevelFromAccidents (a :: l) (some pop) = .highRisk)
    ∧ (∀ (a : Accident) (l : List Accident),
        calculateSafetyLevelFromAccidents (a :: l)
          (some [(calculateSeverityScore (a :: l) : ℚ)]) = .highRisk) :=
  ⟨policyA_high_of_upper_bound,
    fun a l => policyA_high_of_upper_bound a l _ (by simp)
      (fun x hx => le_of_eq (List.mem_singleton.mp hx))⟩

/-- Witness for `claim10_max_score_high_risk`: one record with one fatality,
compared against the single-element population holding its own score 10. -/
theorem claim10_max_score_high_risk_witness :
    calculateSafetyLevelFromAccidents
      [{ area := "A", time := "", fatalities := some 1, severity := none,
         causePrimary := none }] (some [10]) = .highRisk :=
  claim10_max_score_high_risk.1
    { area := "A", time := "", fatalities := some 1, severity := none,
      causePrimary := none } [] [10] (by simp)
    (by simp [calculateSeverityScore, recordScore, sevLower, lowerStr])

/-- Does the character list start with the given pattern? -/
def charsStartWith : List Char → List Char → Bool
  | [], _ => true
  | _ :: _, [] => false
  | c :: cs, d :: ds => c = d && charsStartWith cs ds

/-- Does the character list contain the pattern as a contiguous run? -/
def charsIncl (pat : List Char) : List Char → Bool
  | [] => charsStartWith pat []
  | d :: ds => charsStartWith pat (d :: ds) || charsIncl pat ds

/-- JavaScript `s.includes(pat)` on strings. -/
def strIncludes (s pat : String) : Bool := charsIncl pat.data s.data

/-- The digits of a decimal numeral folded into a natural number. -/
def digitsVal : List Char → Nat → Nat
  | [], acc => acc
  | c :: cs, acc => digitsVal cs (acc * 10 + (c.toNat - '0'.toNat))

/-- JavaScript `parseInt` on the engine's time strings: skip leading
whitespace, accept an optional sign, then read a maximal run of decimal
digits; `none` models the `NaN` result when no digit is found. -/
def parseIntJS (cs : List Char) : Option Int :=
  let cs := cs.dropWhile (fun c => c = ' ' ∨ c = '\t' ∨ c = '\n' ∨ c = '\r')
  match cs with
  | '-' :: rest =>
      let ds := rest.takeWhile Char.isDigit
      if ds = [] then none else some (-(digitsVal ds 0 : Int))
  | '+' :: rest =>
      let ds := rest.takeWhile Char.isDigit
      if ds = [] then none else some (digitsVal ds 0 : Int)
  | other =>
      let ds := other.takeWhile Char.isDigit
      if ds = [] then none else some (digitsVal ds 0 : Int)

/-- The hour-of-day computation shared by `getHourlyDistribution` and
`predictSafetyForHour`: hour 0 when the string has no `:`; otherwise
`parseInt` of the text before the first `:`, with `+12` when the string
contains `pm` and the hour is not 12, and `0` when it contains `am` and
the hour is 12.  `none` models the `NaN` poisoning of an unparseable hour. -/
def parseHourJS (time : String) : Option Int :=
  if time.data.contains ':' then
    match parseIntJS (time.data.takeWhile (· ≠ ':')) with
    | none => none
    | some h =>
        if strIncludes (lowerStr time) "pm" ∧ h ≠ 12 then some (h + 12)
        else if strIncludes (lowerStr time) "am" ∧ h = 12 then some 0
        else some h
  else some 0

/-- The loop body of `getHourlyDistribution`: bump the bucket of the
record's parsed hour when that hour lies in `[0, 24)`, else leave the
counts unchanged. -/
def bumpHour (counts : List Nat) (a : Accident) : List Nat :=
  match parseHourJS a.time with
  | none => counts
  | some h =>
      if 0 ≤ h ∧ h < 24 then counts.set h.toNat (counts.getD h.toNat 0 + 1)
      else counts

/-- Model of `getHourlyDistribution`: a 24-bucket histogram of parsed hours,
returned as the 24 `(hour, count)` pairs. -/
def getHourlyDistribution (accidents : List Accident) : List (Nat × Nat) :=
  let hourCounts := accidents.foldl bumpHour (List.replicate 24 0)
  (List.range 24).map (fun h => (h, hourCounts.getD h 0))

/-- Model of `predictSafetyForHour`: filter the historical records to those whose
parsed hour equals the target, then classify the filtered group. -/
def predictSafetyForHour (hour : Int) (historicalData : List Accident)
    (allScores : Option (List ℚ)) : SafetyLevel :=
  calculateSafetyLevelFromAccidents
    (historicalData.filter (fun a => parseHourJS a.time = some hour)) allScores

/-- C6: the hour extracted for the histogram is 0 for a string with no `:`;
`"2:30 PM" → 14`, `"12:00 AM" → 0`, `"12:00 PM" → 12`, `"09:00" → 9`; and a
record whose computed hour falls outside `[0, 23]` is skipped by the
histogram — no bucket is incremented — rather than clamped. -/
theorem claim6_hour_parsing :
    parseHourJS "2:30 PM" = some 14
    ∧ parseHourJS "12:00 AM" = some 0
    ∧ parseHourJS "12:00 PM" = some 12
    ∧ parseHourJS "09:00" = some 9
    ∧ (∀ t : String, t.data.contains ':' = false → parseHourJS t = some 0)
    ∧ (∀ (l : List Accident) (a : Accident) (h : Int),
        parseHourJS a.time = some h → ¬(0 ≤ h ∧ h < 24) →
        getHourlyDistribution (l ++ [a]) = getHourlyDistribution l) := by
  refine ⟨by decide, by decide, by decide, by decide, ?_, ?_⟩
  · intro t ht
    unfold parseHourJS
    rw [ht]
    rfl
  · intro l a h hparse hrange
    unfold getHourlyDistribution
    rw [List.foldl_append]
    simp only [List.foldl_cons, List.foldl_nil]
    simp only [bumpHour, hparse, if_neg hrange]

/-- Witness for `claim6_hour_parsing`: a colon-free string parses to hour 0,
and a record at the out-of-range hour 25 leaves the histogram unchanged. -/
theorem claim6_hour_parsing_witness :
    parseHourJS "noon" = some 0
    ∧ getHourlyDistribution
        ([] ++ [{ area := "A", time := "25:00", fatalities := none,
                  severity := none, causePrimary := none }]) =
      getHourlyDistribution [] :=
  ⟨claim6_hour_parsing.2.2.2.2.1 "noon" (by decide),
    claim6_hour_parsing.2.2.2.2.2 []
      { area := "A", time := "25:00", fatalities := none, severity := none,
        causePrimary := none } 25 (by decide) (by decide)⟩

/-- The cause string tallied for a record (absent or empty primary causes
become `"Unknown"`). -/
def causeOf (a : Accident) : String :=
  match a.causePrimary with
  | none => "Unknown"
  | some c => if c = "" then "Unknown" else c

/-- One step of the cause tally `acc[cause] = (acc[cause] || 0) + 1`,
on the insertion-ordered entry list that models the JavaScript object. -/
def bumpCause : List (String × Nat) → String → List (String × Nat)
  | [], c => [(c, 1)]
  | (k, n) :: rest, c =>
      if k = c then (k, n + 1) :: rest else (k, n) :: bumpCause rest c

/-- The cause-count entries of a record list, keys in first-seen order. -/
def tallyCauses (l : List Accident) : List (String × Nat) :=
  l.foldl (fun acc a => bumpCause acc (causeOf a)) []

/-- Stable insertion into a count-descending list: an element goes in front
of the first entry whose count does not exceed its own. -/
def insertDesc (x : String × Nat) : List (String × Nat) → List (String × Nat)
  | [] => [x]
  | y :: ys => if y.2 ≤ x.2 then x :: y :: ys else y :: insertDesc x ys

/-- The stable descending-by-count sort used on the tally entries (the model
of `sort((a, b) => b.count - a.count)`, which is stable). -/
def sortDesc : List (String × Nat) → List (String × Nat)
  | [] => []
  | x :: xs => insertDesc x (sortDesc xs)

/-- Model of `getTopCauses`: tally, sort by count descending, keep the first 5. -/
def getTopCauses (l : List Accident) : List (String × Nat) :=
  (sortDesc (tallyCauses l)).take 5

/-- Model of `getDominantCause`: the first ranked cause, or `"Unknown"` when empty. -/
def getDominantCause (l : List Accident) : String :=
  match getTopCauses l with
  | [] => "Unknown"
  | c :: _ => c.1

/-- C5: every empty record collection yields the documented defaults —
the classifier returns safe under both policies, the severity score is 0,
the dominant cause is `"Unknown"`, and the hour-filtered prediction is safe
whenever no record's parsed hour matches the target (in particular on an
empty history). -/
theorem claim5_empty_defaults :
    (∀ pop : Option (List ℚ), calculateSafetyLevelFromAccidents [] pop = .safe)
    ∧ calculateSeverityScore [] = 0
    ∧ getDominantCause [] = "Unknown"
    ∧ (∀ (hour : Int) (data : List Accident) (pop : Option (List ℚ)),
        data.filter (fun a => parseHourJS a.time = some hour) = [] →
        predictSafetyForHour hour data pop = .safe)
    ∧ (∀ (hour : Int) (pop : Option (List ℚ)),
        predictSafetyForHour hour [] pop = .safe) := by
  have hempty : ∀ pop : Option (List ℚ),
      calculateSafetyLevelFromAccidents [] pop = .safe := by
    intro pop
    simp [calculateSafetyLevelFromAccidents]
  refine ⟨hempty, rfl, rfl, ?_, ?_⟩
  · intro hour data pop hf
    unfold predictSafetyForHour
    rw [hf]
    exact hempty pop
  · intro hour pop
    exact hempty pop

/-- Witness for `claim5_empty_defaults`: a one-record history whose parsed
hour 5 misses the target hour 0. -/
theorem claim5_empty_defaults_witness :
    (([{ area := "A", time := "5:00", fatalities := none, severity := none,
         causePrimary := none }] : List Accident).filter
      (fun a => parseHourJS a.time = some 0) = [])
    ∧ predictSafetyForHour 0
        [{ area := "A", time := "5:00", fatalities := none, severity := none,
           causePrimary := none }] none = .safe :=
  ⟨by decide,
    claim5_empty_defaults.2.2.2.1 0
      [{ area := "A", time := "5:00", fatalities := none, severity := none,
         causePrimary := none }] none (by decide)⟩

/-- First-matching-entry count lookup in a tally entry list (0 if absent). -/
def lookupCount : List (String × Nat) → String → Nat
  | [], _ => 0
  | (k, n) :: rest, c => if k = c then n else lookupCount rest c

theorem insertDesc_perm (x : String × Nat) (l : List (String × Nat)) :
    List.Perm (insertDesc x l) (x :: l) := by
  induction l with
  | nil => rfl
  | cons y ys ih =>
      rw [insertDesc]
      by_cases h : y.2 ≤ x.2
      · rw [if_pos h]
      · rw [if_neg h]
        exact (ih.cons y).trans (List.Perm.swap x y ys)

theorem insertDesc_pairwise (x : String × Nat) (l : List (String × Nat))
    (hl : l.Pairwise (fun p q => q.2 ≤ p.2)) :
    (insertDesc x l).Pairwise (fun p q => q.2 ≤ p.2) := by
  induction l with
  | nil => simp [insertDesc]
  | cons y ys ih =>
      rw [insertDesc]
      rcases List.pairwise_cons.mp hl with ⟨hy, hys⟩
      by_cases h : y.2 ≤ x.2
      · rw [if_pos h]
        refine List.pairwise_cons.mpr ⟨?_, hl⟩
        intro q hq
        rcases List.mem_cons.mp hq with rfl | hq'
        · exact h
        · exact le_trans (hy q hq') h
      · rw [if_neg h]
        refine List.pairwise_cons.mpr ⟨?_, ih hys⟩
        intro q hq
        have hq' := (insertDesc_perm x ys).mem_iff.mp hq
        rcases List.mem_cons.mp hq' with rfl | hq''
        · exact le_of_lt (lt_of_not_le h)
        · exact hy q hq''

theorem sortDesc_perm (l : List (String × Nat)) :
    List.Perm (sortDesc l) l := by
  induction l with
  | nil => rfl
  | cons x xs ih =>
      rw [sortDesc]
      exact (insertDesc_perm x (sortDesc xs)).trans (ih.cons x)

theorem sortDesc_pairwise (l : List (String × Nat)) :
    (sortDesc l).Pairwise (fun p q => q.2 ≤ p.2) := by
  induction l with
  | nil => simp [sortDesc]
  | cons x xs ih => exact insertDesc_pairwise x (sortDesc xs) ih

theorem insertDesc_filter (x : String × Nat) (l : List (String × Nat)) (n : Nat) :
    (insertDesc x l).filter (fun p => p.2 = n) =
      if x.2 = n then x :: l.filter (fun p => p.2 = n)
      else l.filter (fun p => p.2 = n) := by
  induction l with
  | nil =>
      by_cases hx : x.2 = n <;> simp [insertDesc, hx]
  | cons y ys ih =>
      rw [insertDesc]
      by_cases h : y.2 ≤ x.2
      · rw [if_pos h]
        by_cases hx : x.2 = n <;> simp [List.filter_cons, hx]
      · rw [if_neg h]
        by_cases hx : x.2 = n
        · have hy : ¬(y.2 = n) := by omega
          simp [List.filter_cons, hx, hy, ih]
        · by_cases hy : y.2 = n <;> simp [List.filter_cons, hx, hy, ih]

theorem sortDesc_filter (l : List (String × Nat)) (n : Nat) :
    (sortDesc l).filter (fun p => p.2 = n) = l.filter (fun p => p.2 = n) := by
  induction l with
  | nil => rfl
  | cons x xs ih =>
      rw [sortDesc, insertDesc_filter, List.filter_cons]
      by_cases hx : x.2 = n <;> simp [hx, ih]

theorem lookupCount_bumpCause (t : List (String × Nat)) (c k : String) :
    lookupCount (bumpCause t c) k =
      if k = c then lookupCount t k + 1 else lookupCount t k := by
  induction t with
  | nil =>
      by_cases h : k = c
      · subst h; simp [bumpCause, lookupCount]
      · simp [bumpCause, lookupCount, h, Ne.symm h]
  | cons q rest ih =>
      obtain ⟨k', n'⟩ := q
      by_cases h1 : k' = c
      · subst h1
        by_cases h2 : k = k'
        · subst h2; simp [bumpCause, lookupCount]
        · simp [bumpCause, lookupCount, h2, Ne.symm h2]
      · by_cases h2 : k' = k
        · subst h2
          simp [bumpCause, lookupCount, h1]
        · simp [bumpCause, lookupCount, h1, h2, ih]

theorem lookupCount_foldl (l : List Accident) (t : List (String × Nat))
    (k : String) :
    lookupCount (l.foldl (fun acc a => bumpCause acc (causeOf a)) t) k =
      lookupCount t k + l.countP (fun a => causeOf a = k) := by
  induction l generalizing t with
  | nil => simp
  | cons a rest ih =>
      rw [List.foldl_cons, ih, lookupCount_bumpCause, List.countP_cons]
      by_cases h : causeOf a = k
      · simp [h]; omega
      · simp [h, Ne.symm h]

theorem lookupCount_tally (l : List Accident) (k : String) :
    lookupCount (tallyCauses l) k = l.countP (fun a => causeOf a = k) := by
  have h := lookupCount_foldl l [] k
  simpa [tallyCauses, lookupCount] using h

theorem keys_bumpCause (t : List (String × Nat)) (c : String) :
    (bumpCause t c).map Prod.fst =
      if c ∈ t.map Prod.fst then t.map Prod.fst
      else t.map Prod.fst ++ [c] := by
  induction t with
  | nil => simp [bumpCause]
  | cons q rest ih =>
      obtain ⟨k', n'⟩ := q
      by_cases h : k' = c
      · subst h; simp [bumpCause]
      · by_cases hc : c ∈ rest.map Prod.fst <;>
          simp [bumpCause, h, Ne.symm h, ih, hc]

theorem nodup_keys_bumpCause (t : List (String × Nat)) (c : String)
    (h : (t.map Prod.fst).Nodup) : ((bumpCause t c).map Prod.fst).Nodup := by
  rw [keys_bumpCause]
  by_cases hc : c ∈ t.map Prod.fst
  · rw [if_pos hc]; exact h
  · rw [if_neg hc, List.nodup_append]
    exact ⟨h, List.nodup_singleton _, fun x hx hxc =>
      hc (List.mem_singleton.mp hxc ▸ hx)⟩

theorem nodup_keys_tally (l : List Accident) :
    ((tallyCauses l).map Prod.fst).Nodup := by
  suffices h : ∀ t : List (String × Nat), (t.map Prod.fst).Nodup →
      (((l.foldl (fun acc a => bumpCause acc (causeOf a)) t).map
        Prod.fst)).Nodup from h [] (by simp)
  induction l with
  | nil => intro t ht; simpa using ht
  | cons a rest ih =>
      intro t ht
      rw [List.foldl_cons]
      exact ih _ (nodup_keys_bumpCause _ _ ht)

theorem lookupCount_eq_of_mem (t : List (String × Nat)) (p : String × Nat)
    (hnd : (t.map Prod.fst).Nodup) (hp : p ∈ t) : lookupCount t p.1 = p.2 := by
  induction t with
  | nil => cases hp
  | cons q rest ih =>
      obtain ⟨k, n⟩ := q
      rw [List.map_cons] at hnd
      have h1 := (List.nodup_cons.mp hnd).1
      have h2 := (List.nodup_cons.mp hnd).2
      rcases List.mem_cons.mp hp with rfl | hp'
      · simp [lookupCount]
      · have hk : ¬(k = p.1) := by
          intro hk
          refine h1 ?_
          rw [hk]
          exact List.mem_map.mpr ⟨p, hp', rfl⟩
        simp only [lookupCount, if_neg hk]
        exact ih h2 hp'

/-- The six records of the spec's stability example, with primary causes
`["A","B","A","C","B","A"]`. -/
def stabilityExample : List Accident :=
  [{ area := "x", time := "", fatalities := none, severity := none,
     causePrimary := some "A" },
   { area := "x", time := "", fatalities := none, severity := none,
     causePrimary := some "B" },
   { area := "x", time := "", fatalities := none, severity := none,
     causePrimary := some "A" },
   { area := "x", time := "", fatalities := none, severity := none,
     causePrimary := some "C" },
   { area := "x", time := "", fatalities := none, severity := none,
     causePrimary := some "B" },
   { area := "x", time := "", fatalities := none, severity := none,
     causePrimary := some "A" }]

/-- C8: `getTopCauses` tallies primary causes case-sensitively with
`"Unknown"` substituted for absent/empty causes, and returns at most 5
entries in descending count order; each returned count is the exact
occurrence count of its cause; equal counts keep first-encountered order
(the sort leaves each count class unchanged); every tallied cause left out
of the result counts no more than every returned one; and causes
`["A","B","A","C","B","A"]` yield `[("A",3),("B",2),("C",1)]`. -/
theorem claim8_top_causes :
    getTopCauses stabilityExample = [("A", 3), ("B", 2), ("C", 1)]
    ∧ (∀ l : List Accident, (getTopCauses l).length ≤ 5)
    ∧ (∀ l : List Accident,
        (getTopCauses l).Pairwise (fun p q => q.2 ≤ p.2))
    ∧ (∀ (l : List Accident) (k : String),
        lookupCount (tallyCauses l) k = l.countP (fun a => causeOf a = k))
    ∧ (∀ (l : List Accident) (p : String × Nat), p ∈ getTopCauses l →
        p.2 = l.countP (fun a => causeOf a = p.1))
    ∧ (∀ (l : List Accident) (n : Nat),
        (sortDesc (tallyCauses l)).filter (fun p => p.2 = n)
          = (tallyCauses l).filter (fun p => p.2 = n))
    ∧ (∀ (l : List Accident) (p : String × Nat), p ∈ tallyCauses l →
        p ∉ getTopCauses l → ∀ q ∈ getTopCauses l, p.2 ≤ q.2) := by
  have hmem_tally : ∀ (l : List Accident) (p : String × Nat),
      p ∈ getTopCauses l → p ∈ tallyCauses l := by
    intro l p hp
    exact (sortDesc_perm (tallyCauses l)).mem_iff.mp
      (List.take_subset 5 _ hp)
  refine ⟨by decide, ?_, ?_, fun l k => lookupCount_tally l k, ?_,
    fun l n => sortDesc_filter _ n, ?_⟩
  · intro l
    simp only [getTopCauses, List.length_take]
    omega
  · intro l
    exact (sortDesc_pairwise (tallyCauses l)).sublist (List.take_sublist 5 _)
  · intro l p hp
    rw [← lookupCount_tally l p.1]
    exact (lookupCount_eq_of_mem _ _ (nodup_keys_tally l)
      (hmem_tally l p hp)).symm
  · intro l p hptally hpnot q hq
    have hsorted : (List.take 5 (sortDesc (tallyCauses l))
        ++ List.drop 5 (sortDesc (tallyCauses l))).Pairwise
        (fun p q => q.2 ≤ p.2) := by
      rw [List.take_append_drop]
      exact sortDesc_pairwise _
    have hpin : p ∈ sortDesc (tallyCauses l) :=
      (sortDesc_perm (tallyCauses l)).mem_iff.mpr hptally
    have hpdrop : p ∈ List.drop 5 (sortDesc (tallyCauses l)) := by
      have hsplit : p ∈ List.take 5 (sortDesc (tallyCauses l))
          ++ List.drop 5 (sortDesc (tallyCauses l)) := by
        rw [List.take_append_drop]
        exact hpin
      rcases List.mem_append.mp hsplit with h | h
      · exact absurd h hpnot
      · exact h
    exact (List.pairwise_append.mp hsorted).2.2 q hq p hpdrop

/-- Witness for `claim8_top_causes`: the quantified parts applied to the
stability example and its top entry `("A", 3)`. -/
theorem claim8_top_causes_witness :
    lookupCount (tallyCauses stabilityExample) "A" =
      stabilityExample.countP (fun a => causeOf a = "A")
    ∧ (("A", 3) : String × Nat).2 =
        stabilityExample.countP (fun a => causeOf a = ("A", 3).1) :=
  ⟨claim8_top_causes.2.2.2.1 stabilityExample "A",
    claim8_top_causes.2.2.2.2.1 stabilityExample ("A", 3) (by decide)⟩

/-- One step of the area grouping `reduce`: append the record to its
area's group, creating the group at the end on first sight of the key. -/
def pushRec : List (String × List Accident) → Accident →
    List (String × List Accident)
  | [], a => [(a.area, [a])]
  | (k, grp) :: rest, a =>
      if k = a.area then (k, grp ++ [a]) :: rest
      else (k, grp) :: pushRec rest a

/-- Grouping a record list by area, keys in first-seen order (the model of
the `reduce` into a `Record<string, Accident[]>` plus `Object.entries`). -/
def groupByArea (accidents : List Accident) : List (String × List Accident) :=
  accidents.foldl pushRec []

/-- First-matching-entry group lookup ([] if the key is absent). -/
def lookupGroup : List (String × List Accident) → String → List Accident
  | [], _ => []
  | (k, grp) :: rest, c => if k = c then grp else lookupGroup rest c

/-- Model of `calculateAreaScores`: per-area severity scores (entry list in key
order) together with the flat list of all scores in the same order. -/
def calculateAreaScores (accidents : List Accident) :
    List (String × Nat) × List ℚ :=
  let areaGroups := groupByArea accidents
  (areaGroups.map (fun p => (p.1, calculateSeverityScore p.2)),
   areaGroups.map (fun p => (calculateSeverityScore p.2 : ℚ)))

/-- The dashboard's `areaAnalytics`: per area, the accident count and the
safety level computed by `calculateSafetyLevelFromAccidents(areaAccidents)`
— called without a comparison-score population. -/
def areaAnalytics (accidents : List Accident) :
    List (String × Nat × SafetyLevel) :=
  (groupByArea accidents).map
    (fun p => (p.1, p.2.length, calculateSafetyLevelFromAccidents p.2 none))

/-- First-seen-order deduplication of a key list (the specification's
"keys enumerated in first-seen order"). -/
def dedupKeepFirst (ks : List String) : List String :=
  ks.foldl (fun acc k => if k ∈ acc then acc else acc ++ [k]) []

theorem lookupGroup_pushRec (gs : List (String × List Accident))
    (a : Accident) (k : String) :
    lookupGroup (pushRec gs a) k =
      if k = a.area then lookupGroup gs k ++ [a] else lookupGroup gs k := by
  induction gs with
  | nil =>
      by_cases h : k = a.area
      · subst h; simp [pushRec, lookupGroup]
      · simp [pushRec, lookupGroup, h, Ne.symm h]
  | cons q rest ih =>
      obtain ⟨k', grp⟩ := q
      by_cases h1 : k' = a.area
      · rw [pushRec, if_pos h1]
        by_cases h2 : k' = k
        · have hka : k = a.area := h2 ▸ h1
          simp [lookupGroup, h2, hka]
        · have hka : ¬(k = a.area) := fun h => h2 (h1.trans h.symm)
          simp [lookupGroup, h2, hka]
      · rw [pushRec, if_neg h1]
        by_cases h2 : k' = k
        · have hka : ¬(k = a.area) := fun h => h1 (h2.trans h)
          simp [lookupGroup, h2, hka]
        · simp [lookupGroup, h2, ih]

theorem lookupGroup_foldl (l : List Accident)
    (t : List (String × List Accident)) (k : String) :
    lookupGroup (l.foldl pushRec t) k =
      lookupGroup t k ++ l.filter (fun a => a.area = k) := by
  induction l generalizing t with
  | nil => simp
  | cons a rest ih =>
      rw [List.foldl_cons, ih, lookupGroup_pushRec, List.filter_cons]
      by_cases h : a.area = k
      · simp [h]
      · simp [h, Ne.symm h]

theorem sizes_pushRec (gs : List (String × List Accident)) (a : Accident) :
    ((pushRec gs a).map (fun p => p.2.length)).sum =
      (gs.map (fun p => p.2.length)).sum + 1 := by
  induction gs with
  | nil => simp [pushRec]
  | cons q rest ih =>
      obtain ⟨k', grp⟩ := q
      by_cases h : k' = a.area
      · rw [pushRec, if_pos h]
        simp only [List.map_cons, List.sum_cons, List.length_append,
          List.length_singleton]
        omega
      · rw [pushRec, if_neg h]
        simp only [List.map_cons, List.sum_cons, ih]
        omega

theorem sizes_foldl (l : List Accident) (t : List (String × List Accident)) :
    ((l.foldl pushRec t).map (fun p => p.2.length)).sum =
      (t.map (fun p => p.2.length)).sum + l.length := by
  induction l generalizing t with
  | nil => simp
  | cons a rest ih =>
      rw [List.foldl_cons, ih, sizes_pushRec, List.length_cons]
      omega

theorem keys_pushRec (gs : List (String × List Accident)) (a : Accident) :
    (pushRec gs a).map Prod.fst =
      if a.area ∈ gs.map Prod.fst then gs.map Prod.fst
      else gs.map Prod.fst ++ [a.area] := by
  induction gs with
  | nil => simp [pushRec]
  | cons q rest ih =>
      obtain ⟨k', grp⟩ := q
      by_cases h : k' = a.area
      · subst h; simp [pushRec]
      · by_cases hc : a.area ∈ rest.map Prod.fst <;>
          simp [pushRec, h, Ne.symm h, ih, hc]

theorem keys_foldl (l : List Accident) (t : List (String × List Accident)) :
    (l.foldl pushRec t).map Prod.fst =
      (l.map (fun a => a.area)).foldl
        (fun acc k => if k ∈ acc then acc else acc ++ [k])
        (t.map Prod.fst) := by
  induction l generalizing t with
  | nil => rfl
  | cons a rest ih =>
      rw [List.foldl_cons, ih, List.map_cons, List.foldl_cons, keys_pushRec]

theorem areas_pushRec (gs : List (String × List Accident)) (a : Accident)
    (h : ∀ p ∈ gs, ∀ x ∈ p.2, x.area = p.1) :
    ∀ p ∈ pushRec gs a, ∀ x ∈ p.2, x.area = p.1 := by
  induction gs with
  | nil =>
      intro p hp x hx
      simp only [pushRec, List.mem_singleton] at hp
      subst hp
      simp only [List.mem_singleton] at hx
      subst hx
      rfl
  | cons q rest ih =>
      obtain ⟨k', grp⟩ := q
      by_cases hk : k' = a.area
      · intro p hp x hx
        rw [pushRec, if_pos hk] at hp
        rcases List.mem_cons.mp hp with rfl | hp'
        · rcases List.mem_append.mp hx with hx' | hx'
          · exact h (k', grp) (List.mem_cons_self _ _) x hx'
          · rw [List.mem_singleton.mp hx']
            exact hk.symm
        · exact h p (List.mem_cons_of_mem _ hp') x hx
      · intro p hp x hx
        rw [pushRec, if_neg hk] at hp
        rcases List.mem_cons.mp hp with rfl | hp'
        · exact h (k', grp) (List.mem_cons_self _ _) x hx
        · exact ih (fun p hp => h p (List.mem_cons_of_mem _ hp)) p hp' x hx

theorem areas_foldl (l : List Accident) (t : List (String × List Accident))
    (h : ∀ p ∈ t, ∀ x ∈ p.2, x.area = p.1) :
    ∀ p ∈ l.foldl pushRec t, ∀ x ∈ p.2, x.area = p.1 := by
  induction l generalizing t with
  | nil => exact h
  | cons a rest ih =>
      rw [List.foldl_cons]
      exact ih _ (areas_pushRec t a h)

/-- C7: grouping by area is a partition — group sizes sum to the input
length, the group under each key is exactly the input subsequence of
records with that area (so each record lands in exactly one group, in
input order), every grouped record's area matches its key, keys appear in
first-seen order, and the empty input yields an empty mapping. -/
theorem claim7_grouping_partition :
    (∀ l : List Accident,
      ((groupByArea l).map (fun p => p.2.length)).sum = l.length)
    ∧ (∀ (l : List Accident) (k : String),
        lookupGroup (groupByArea l) k = l.filter (fun a => a.area = k))
    ∧ (∀ l : List Accident, ∀ p ∈ groupByArea l, ∀ a ∈ p.2, a.area = p.1)
    ∧ (∀ l : List Accident,
        (groupByArea l).map Prod.fst =
          dedupKeepFirst (l.map (fun a => a.area)))
    ∧ groupByArea [] = [] := by
  refine ⟨?_, ?_, ?_, ?_, rfl⟩
  · intro l
    have h := sizes_foldl l []
    simpa [groupByArea] using h
  · intro l k
    have h := lookupGroup_foldl l [] k
    simpa [groupByArea, lookupGroup] using h
  · intro l
    exact areas_foldl l [] (by simp)
  · intro l
    have h := keys_foldl l []
    simpa [groupByArea, dedupKeepFirst] using h

/-- Witness for `claim7_grouping_partition`: the membership-quantified
conjunct applied to a single-record list and its only group. -/
theorem claim7_grouping_partition_witness :
    ({ area := "A", time := "", fatalities := none, severity := none,
       causePrimary := none } : Accident).area = "A" :=
  claim7_grouping_partition.2.2.1
    [{ area := "A", time := "", fatalities := none, severity := none,
       causePrimary := none }]
    ("A", [{ area := "A", time := "", fatalities := none, severity := none,
             causePrimary := none }]) (by decide)
    { area := "A", time := "", fatalities := none, severity := none,
      causePrimary := none } (by decide)

theorem lookupGroup_groupByArea (l : List Accident) (k : String) :
    lookupGroup (groupByArea l) k = l.filter (fun a => a.area = k) := by
  have h := lookupGroup_foldl l [] k
  simpa [groupByArea, lookupGroup] using h

theorem nodup_keys_pushRec (gs : List (String × List Accident)) (a : Accident)
    (h : (gs.map Prod.fst).Nodup) : ((pushRec gs a).map Prod.fst).Nodup := by
  rw [keys_pushRec]
  by_cases hc : a.area ∈ gs.map Prod.fst
  · rw [if_pos hc]; exact h
  · rw [if_neg hc, List.nodup_append]
    exact ⟨h, List.nodup_singleton _, fun x hx hxc =>
      hc (List.mem_singleton.mp hxc ▸ hx)⟩

theorem nodup_keys_groupByArea (l : List Accident) :
    ((groupByArea l).map Prod.fst).Nodup := by
  suffices h : ∀ t : List (String × List Accident), (t.map Prod.fst).Nodup →
      ((l.foldl pushRec t).map Prod.fst).Nodup from h [] (by simp)
  induction l with
  | nil => intro t ht; simpa using ht
  | cons a rest ih =>
      intro t ht
      rw [List.foldl_cons]
      exact ih _ (nodup_keys_pushRec _ _ ht)

theorem lookupGroup_eq_of_mem (gs : List (String × List Accident))
    (p : String × List Accident) (hnd : (gs.map Prod.fst).Nodup)
    (hp : p ∈ gs) : lookupGroup gs p.1 = p.2 := by
  induction gs with
  | nil => cases hp
  | cons q rest ih =>
      obtain ⟨k, grp⟩ := q
      rw [List.map_cons] at hnd
      have h1 := (List.nodup_cons.mp hnd).1
      have h2 := (List.nodup_cons.mp hnd).2
      rcases List.mem_cons.mp hp with rfl | hp'
      · simp [lookupGroup]
      · have hk : ¬(k = p.1) := by
          intro hk
          refine h1 ?_
          rw [hk]
          exact List.mem_map.mpr ⟨p, hp', rfl⟩
        simp only [lookupGroup, if_neg hk]
        exact ih h2 hp'

/-- A record whose area scores 10: the dashboard classifies its area safe
(Policy B), while Policy A against the full population classifies it
high-risk. -/
def counterexampleAccident : Accident :=
  { area := "A", time := "", fatalities := some 1, severity := some "minor",
    causePrimary := none }

/-- C2 counterexample: on the one-record dataset the dashboard's
`areaAnalytics` reports area "A" as safe, whereas the Policy A
classification of the same group against the full per-area score
population (`calculateAreaScores`) is high-risk — so the live dashboard is
not computing the Policy A classification. -/
theorem claim2_counterexample_dashboard :
    areaAnalytics [counterexampleAccident] = [("A", 1, SafetyLevel.safe)]
    ∧ calculateSafetyLevelFromAccidents [counterexampleAccident]
        (some (calculateAreaScores [counterexampleAccident]).2) =
      SafetyLevel.highRisk
    ∧ SafetyLevel.safe ≠ SafetyLevel.highRisk := by
  refine ⟨by decide, ?_, by decide⟩
  have hpop : (calculateAreaScores [counterexampleAccident]).2 =
      [((10 : ℕ) : ℚ)] := by
    simp [calculateAreaScores, groupByArea, pushRec, calculateSeverityScore,
      recordScore, sevLower, lowerStr, counterexampleAccident]
  rw [hpop]
  have hscore : calculateSeverityScore [counterexampleAccident] = 10 := by
    decide
  exact policyA_high_of_upper_bound counterexampleAccident [] _ (by simp)
    (by
      intro x hx
      rw [List.mem_singleton.mp hx, hscore])

/-- C2 amended: the dashboard's per-area safety level is the Policy B
(absolute-threshold) classification of that area's records — the
classifier is called without a comparison-score population — and the
reported count is the number of the area's records. -/
theorem claim2_amended_dashboard_policyB :
    ∀ (l : List Accident) (p : String × Nat × SafetyLevel),
      p ∈ areaAnalytics l →
      p.2.2 = calculateSafetyLevelFromAccidents
          (l.filter (fun a => a.area = p.1)) none
      ∧ p.2.1 = (l.filter (fun a => a.area = p.1)).length := by
  intro l p hp
  obtain ⟨g, hg, rfl⟩ := List.mem_map.mp hp
  have hlookup : lookupGroup (groupByArea l) g.1 = g.2 :=
    lookupGroup_eq_of_mem _ _ (nodup_keys_groupByArea l) hg
  have hfilter : g.2 = l.filter (fun a => a.area = g.1) := by
    rw [← hlookup, lookupGroup_groupByArea]
  exact ⟨by rw [← hfilter], by rw [← hfilter]⟩

/-- Witness for `claim2_amended_dashboard_policyB` on the one-record
dataset. -/
theorem claim2_amended_dashboard_policyB_witness :
    (("A", 1, SafetyLevel.safe) : String × Nat × SafetyLevel).2.2 =
      calculateSafetyLevelFromAccidents
        ([counterexampleAccident].filter (fun a => a.area = "A")) none
    ∧ (("A", 1, SafetyLevel.safe) : String × Nat × SafetyLevel).2.1 =
        ([counterexampleAccident].filter (fun a => a.area = "A")).length :=
  claim2_amended_dashboard_policyB [counterexampleAccident]
    ("A", 1, SafetyLevel.safe) (by decide)

/-- Civilian advisories for weather/rain/fog causes. -/
def civWeather : List String :=
  ["Check tire tread and wiper blades before driving in rain",
   "Reduce speed by at least 30% and increase following distance",
   "Use fog lights in low visibility, not high beams",
   "Avoid sudden braking or sharp turns on wet roads"]

/-- Civilian advisories for speed/overspeeding causes. -/
def civSpeed : List String :=
  ["Be aware that this is a high-speed accident zone; adhere strictly to the posted speed limit",
   "Allow extra time for your journey to avoid the temptation to speed",
   "Be cautious of other vehicles making sudden maneuvers",
   "Maintain safe following distance to allow for sudden stops"]

/-- Civilian advisories for inattention/distraction/signal causes. -/
def civSignal : List String :=
  ["Avoid all mobile phone use when approaching this area",
   "Be prepared for sudden stops and lane changes",
   "Before proceeding on a green light, quickly check for cross-traffic that may have run the red light",
   "Stay alert and avoid distractions like eating or adjusting radio"]

/-- Civilian advisories for alcohol/drunk causes. -/
def civAlcohol : List String :=
  ["Never drive under the influence of alcohol or drugs",
   "Watch for erratic driving behavior from other vehicles",
   "Consider alternative transportation if you plan to consume alcohol",
   "Report suspected drunk drivers to authorities"]

/-- Civilian advisories for pedestrian/jaywalking causes. -/
def civPedestrian : List String :=
  ["Be extra vigilant for pedestrians, especially near crosswalks",
   "Slow down in areas with high foot traffic",
   "Never assume pedestrians will wait for you to pass",
   "Be especially careful during evening hours when visibility is reduced"]

/-- Civilian advisories for overtaking/reckless causes. -/
def civOvertaking : List String :=
  ["Be cautious when overtaking; ensure clear visibility and safe distance",
   "Watch for aggressive drivers attempting risky overtaking maneuvers",
   "Use defensive driving techniques and maintain your lane",
   "Never engage with aggressive or reckless drivers"]

/-- Default civilian advisories. -/
def civDefault : List String :=
  ["Drive defensively and stay alert at all times",
   "Maintain safe following distance from other vehicles",
   "Obey all traffic signals and road signs",
   "Be prepared for unexpected situations"]

/-- Government advisories for weather/rain/fog causes. -/
def govWeather : List String :=
  ["Improve road infrastructure by clearing drainage systems to prevent waterlogging",
   "Repair potholes that become hazardous in rain",
   "Install high-visibility, reflective road markings and signage that perform well in fog and rain",
   "Consider installing weather-responsive traffic management systems"]

/-- Government advisories for speed/overspeeding causes. -/
def govSpeed : List String :=
  ["Install automated speed-enforcement cameras on this stretch",
   "Implement traffic calming measures like speed bumps near intersections or pedestrian zones",
   "Increase the frequency of traffic police patrols with speed guns",
   "Improve signage warning drivers of speed limits and accident history"]

/-- Government advisories for inattention/distraction/signal causes. -/
def govSignal : List String :=
  ["Improve traffic signal visibility and timing at this intersection",
   "Install rumble strips on the approach to the intersection to alert drivers",
   "Consider creating a \x27no-right-on-red\x27 policy here if not already in place",
   "Deploy red light cameras to enforce traffic signal compliance"]

/-- Government advisories for alcohol/drunk causes. -/
def govAlcohol : List String :=
  ["Increase sobriety checkpoints and breathalyzer testing in this area",
   "Launch targeted awareness campaigns about drunk driving consequences",
   "Improve public transportation options during peak nightlife hours",
   "Implement stricter penalties for DUI offenses in high-risk zones"]

/-- Government advisories for pedestrian/jaywalking causes. -/
def govPedestrian : List String :=
  ["Install or improve pedestrian crosswalks with clear markings",
   "Add pedestrian crossing signals with countdown timers",
   "Implement speed reduction zones near high pedestrian traffic areas",
   "Consider installing pedestrian barriers to prevent jaywalking"]

/-- Government advisories for overtaking/reckless causes. -/
def govOvertaking : List String :=
  ["Install clear lane markings and no-overtaking zone signage",
   "Increase traffic police presence to deter reckless driving",
   "Consider median barriers to prevent dangerous overtaking",
   "Implement stricter penalties for reckless driving in this zone"]

/-- Default government advisories. -/
def govDefault : List String :=
  ["Conduct comprehensive traffic safety audit of this area",
   "Improve road lighting and visibility",
   "Increase traffic police presence during peak hours",
   "Install warning signs about accident-prone zone"]

/-- Model of `getCivilianSuggestions`: first-match keyword lookup on the lowercased
dominant cause, in the source's fixed category order. -/
def getCivilianSuggestions (dominantCause : String) : List String :=
  let cause := lowerStr dominantCause
  if strIncludes cause "weather" || strIncludes cause "rain"
      || strIncludes cause "fog" then civWeather
  else if strIncludes cause "speed" || strIncludes cause "overspeeding" then
    civSpeed
  else if strIncludes cause "inattention" || strIncludes cause "distract"
      || strIncludes cause "red light" || strIncludes cause "signal" then
    civSignal
  else if strIncludes cause "alcohol" || strIncludes cause "drunk" then
    civAlcohol
  else if strIncludes cause "pedestrian" || strIncludes cause "jaywalking" then
    civPedestrian
  else if strIncludes cause "overtaking" || strIncludes cause "reckless" then
    civOvertaking
  else civDefault

/-- Model of `getGovernmentSuggestions`: the authority-facing twin of
`getCivilianSuggestions`, same keyword categories and order. -/
def getGovernmentSuggestions (dominantCause : String) : List String :=
  let cause := lowerStr dominantCause
  if strIncludes cause "weather" || strIncludes cause "rain"
      || strIncludes cause "fog" then govWeather
  else if strIncludes cause "speed" || strIncludes cause "overspeeding" then
    govSpeed
  else if strIncludes cause "inattention" || strIncludes cause "distract"
      || strIncludes cause "red light" || strIncludes cause "signal" then
    govSignal
  else if strIncludes cause "alcohol" || strIncludes cause "drunk" then
    govAlcohol
  else if strIncludes cause "pedestrian" || strIncludes cause "jaywalking" then
    govPedestrian
  else if strIncludes cause "overtaking" || strIncludes cause "reckless" then
    govOvertaking
  else govDefault

/-- All keywords tested by the recommendation lookup, in evaluation order. -/
def keywordCategories : List String :=
  ["weather", "rain", "fog", "speed", "overspeeding", "inattention",
   "distract", "red light", "signal", "alcohol", "drunk", "pedestrian",
   "jaywalking", "overtaking", "reckless"]

/-- C9: the recommendation lookup lowercases the dominant cause and tests
the keyword categories in fixed order by substring matching; a string
containing "rain" always gets the weather advisories (first category wins,
e.g. "Drunk driving in rain"); matching is case-insensitive ("WEATHER");
when no keyword occurs — e.g. "Unrelated Mystery Cause" — both functions
return the default generic lists; and both returned lists are always
non-empty. -/
theorem claim9_recommendations :
    (∀ s : String,
      getCivilianSuggestions s ≠ [] ∧ getGovernmentSuggestions s ≠ [])
    ∧ getCivilianSuggestions "Unrelated Mystery Cause" = civDefault
    ∧ getGovernmentSuggestions "Unrelated Mystery Cause" = govDefault
    ∧ (∀ s : String, strIncludes (lowerStr s) "rain" = true →
        getCivilianSuggestions s = civWeather
        ∧ getGovernmentSuggestions s = govWeather)
    ∧ getCivilianSuggestions "Drunk driving in rain" = civWeather
    ∧ getCivilianSuggestions "WEATHER" = civWeather
    ∧ (∀ s : String,
        (∀ kw ∈ keywordCategories, strIncludes (lowerStr s) kw = false) →
        getCivilianSuggestions s = civDefault
        ∧ getGovernmentSuggestions s = govDefault) := by
  refine ⟨?_, by decide, by decide, ?_, by decide, by decide, ?_⟩
  · intro s
    constructor
    · simp only [getCivilianSuggestions]
      repeat' split
      all_goals decide
    · simp only [getGovernmentSuggestions]
      repeat' split
      all_goals decide
  · intro s h
    constructor <;>
      simp [getCivilianSuggestions, getGovernmentSuggestions, h]
  · intro s h
    have h1 := h "weather" (by decide)
    have h2 := h "rain" (by decide)
    have h3 := h "fog" (by decide)
    have h4 := h "speed" (by decide)
    have h5 := h "overspeeding" (by decide)
    have h6 := h "inattention" (by decide)
    have h7 := h "distract" (by decide)
    have h8 := h "red light" (by decide)
    have h9 := h "signal" (by decide)
    have h10 := h "alcohol" (by decide)
    have h11 := h "drunk" (by decide)
    have h12 := h "pedestrian" (by decide)
    have h13 := h "jaywalking" (by decide)
    have h14 := h "overtaking" (by decide)
    have h15 := h "reckless" (by decide)
    constructor <;>
      simp [getCivilianSuggestions, getGovernmentSuggestions, h1, h2, h3,
        h4, h5, h6, h7, h8, h9, h10, h11, h12, h13, h14, h15]

/-- Witness for `claim9_recommendations`: the rain rule at `"rain"` and the
no-keyword fallback at `"x"`. -/
theorem claim9_recommendations_witness :
    (getCivilianSuggestions "rain" = civWeather
      ∧ getGovernmentSuggestions "rain" = govWeather)
    ∧ (getCivilianSuggestions "x" = civDefault
      ∧ getGovernmentSuggestions "x" = govDefault) :=
  ⟨claim9_recommendations.2.2.2.1 "rain" (by decide),
    claim9_recommendations.2.2.2.2.2.2 "x" (by decide)⟩

end RoadSense
